import Mathlib

/-!
Verification of the tealsp language-tooling bridge (dragmz/go-algorand):
a shallow embedding of the diagnostics translator, the transport selector
and the debug source resolver from cmd/tealsp/main.go and its dbg-enabled
variant, with theorems about the properties the specification states.
-/

/-- Diagnostic severity, mirroring teal.DiagErr / teal.DiagWarn. -/
inductive DiagSeverity where
  | DiagErr
  | DiagWarn
deriving DecidableEq, Repr

/-- lsp.LspPosition: Line and Character are Go ints, modelled as Int. -/
structure LspPosition where
  Line : Int
  Character : Int
deriving DecidableEq, Repr

/-- lsp.LspRange with fields Start and End (End renamed: Lean keyword). -/
structure LspRange where
  Start : LspPosition
  Stop : LspPosition
deriving DecidableEq, Repr

/-- lsp.LspDiagnostic: Severity is a Go pointer, modelled as Option. -/
structure LspDiagnostic where
  Range : LspRange
  Severity : Option DiagSeverity
  Message : String
deriving DecidableEq, Repr

/-- A structured assembler error: Line and Column (Go ints, 1-based as
produced by the assembler), and msg, the text of its wrapped cause
(what e.Unwrap().Error() returns in the source). -/
structure SourceError where
  Line : Int
  Column : Int
  msg : String
deriving DecidableEq, Repr

/-- The assembler result consumed by the translator: ops.Errors and
ops.Warnings of logic.AssembleString; each warning modelled by the string
its Error() method returns. -/
structure OpStream where
  Errors : List SourceError
  Warnings : List String
deriving DecidableEq, Repr

/-- The position and range (0,0)-(0,0) used for non-positioned diagnostics. -/
def zeroPos : LspPosition := { Line := 0, Character := 0 }

def zeroRange : LspRange := { Start := zeroPos, Stop := zeroPos }

/-- The fallback diagnostic built when a top-level failure has no
structured errors or warnings: range (0,0)-(0,0), severity Error,
message err.Error(). -/
def fallbackDiag (msg : String) : LspDiagnostic :=
  { Range := zeroRange, Severity := some DiagSeverity.DiagErr, Message := msg }

/-- The per-error diagnostic of the translator loop: the 1-based line and
column are each decremented only when non-zero, the range is zero-width at
that position, severity Error, message the wrapped cause text. -/
def errDiag (e : SourceError) : LspDiagnostic :=
  let l := e.Line
  let c := e.Column
  let l := if l ≠ 0 then l - 1 else l
  let c := if c ≠ 0 then c - 1 else c
  { Range := { Start := { Line := l, Character := c },
               Stop := { Line := l, Character := c } },
    Severity := some DiagSeverity.DiagErr,
    Message := e.msg }

/-- The per-warning diagnostic of the translator loop: range
(0,0)-(0,0), severity Warning, message w.Error(). -/
def warnDiag (w : String) : LspDiagnostic :=
  { Range := zeroRange, Severity := some DiagSeverity.DiagWarn, Message := w }

/-- The diagnostics handler registered with WithPrepareDiagnosticsHandler,
translated statement by statement from the source: ops and err are the two
results of logic.AssembleString (err = none models a nil error); res
starts empty, the fallback append runs under the nested nil/emptiness
checks, then the Errors loop and the Warnings loop append in order. -/
def prepareDiagnostics (ops : OpStream) (err : Option String) : List LspDiagnostic :=
  let res : List LspDiagnostic := []
  let res :=
    match err with
    | some msg =>
        if ops.Errors.length = 0 ∧ ops.Warnings.length = 0 then
          res ++ [fallbackDiag msg]
        else
          res
    | none => res
  let res := ops.Errors.foldl (fun r e => r ++ [errDiag e]) res
  let res := ops.Warnings.foldl (fun r w => r ++ [warnDiag w]) res
  res

/-- The fallback group of the translated sequence, named for use in
statements: one fallback diagnostic exactly under the source's guard,
otherwise empty. -/
def fallbackList (ops : OpStream) (err : Option String) : List LspDiagnostic :=
  match err with
  | some msg =>
      if ops.Errors.length = 0 ∧ ops.Warnings.length = 0 then [fallbackDiag msg]
      else []
  | none => []

lemma foldl_append_singleton {α β : Type} (f : α → β) :
    ∀ (l : List α) (init : List β),
      l.foldl (fun r e => r ++ [f e]) init = init ++ l.map f := by
  intro l
  induction l with
  | nil => intro init; simp
  | cons x xs ih =>
      intro init
      simp [List.foldl_cons, ih, List.append_assoc]

/-- Structure of the translated sequence: fallback group, then the error
diagnostics in order, then the warning diagnostics in order. -/
lemma prepareDiagnostics_eq (ops : OpStream) (err : Option String) :
    prepareDiagnostics ops err =
      fallbackList ops err ++ ops.Errors.map errDiag ++ ops.Warnings.map warnDiag := by
  unfold prepareDiagnostics fallbackList
  cases err with
  | none => simp [foldl_append_singleton]
  | some msg =>
      by_cases h : ops.Errors.length = 0 ∧ ops.Warnings.length = 0
      · simp [h, foldl_append_singleton]
      · simp [h, foldl_append_singleton]

/-- C3: for a structured assembler error with 1-based coordinates, if both
line and column are positive the translated position is (line-1, column-1);
a zero line (resp. column) translates to 0 and a non-negative input
coordinate never yields a negative translated coordinate. -/
theorem errDiag_position (e : SourceError) :
    (0 < e.Line → 0 < e.Column →
      (errDiag e).Range.Start = { Line := e.Line - 1, Character := e.Column - 1 }) ∧
    (e.Line = 0 → (errDiag e).Range.Start.Line = 0) ∧
    (e.Column = 0 → (errDiag e).Range.Start.Character = 0) ∧
    (0 ≤ e.Line → 0 ≤ (errDiag e).Range.Start.Line) ∧
    (0 ≤ e.Column → 0 ≤ (errDiag e).Range.Start.Character) := by
  refine ⟨?_, ?_, ?_, ?_, ?_⟩
  · intro hl hc
    have hl' : e.Line ≠ 0 := by omega
    have hc' : e.Column ≠ 0 := by omega
    simp [errDiag, hl', hc']
  · intro hl
    simp [errDiag, hl]
  · intro hc
    simp [errDiag, hc]
  · intro hl
    by_cases h : e.Line = 0
    · simp [errDiag, h]
    · simp [errDiag, h]; omega
  · intro hc
    by_cases h : e.Column = 0
    · simp [errDiag, h]
    · simp [errDiag, h]; omega

theorem errDiag_position_witness :
    (0 < (3 : Int) ∧ 0 < (5 : Int) ∧
      (errDiag { Line := 3, Column := 5, msg := "m" }).Range.Start =
        { Line := 2, Character := 4 }) ∧
    ((0 : Int) = 0 ∧
      (errDiag { Line := 0, Column := 7, msg := "m" }).Range.Start.Line = 0 ∧
      (errDiag { Line := 7, Column := 0, msg := "m" }).Range.Start.Character = 0) ∧
    (0 ≤ (0 : Int) ∧
      0 ≤ (errDiag { Line := 0, Column := 0, msg := "m" }).Range.Start.Line ∧
      0 ≤ (errDiag { Line := 0, Column := 0, msg := "m" }).Range.Start.Character) :=
  ⟨⟨by decide, by decide,
      (errDiag_position { Line := 3, Column := 5, msg := "m" }).1 (by decide) (by decide)⟩,
   ⟨rfl,
      (errDiag_position { Line := 0, Column := 7, msg := "m" }).2.1 rfl,
      (errDiag_position { Line := 7, Column := 0, msg := "m" }).2.2.1 rfl⟩,
   ⟨by decide,
      (errDiag_position { Line := 0, Column := 0, msg := "m" }).2.2.2.1 (by decide),
      (errDiag_position { Line := 0, Column := 0, msg := "m" }).2.2.2.2 (by decide)⟩⟩

/-- C4: the fallback diagnostic is emitted exactly when a top-level failure
occurred and there are zero structured errors and zero warnings; with at
least one structured error (or any warning, or no failure) it is never
emitted; when emitted, the whole output is that single diagnostic at
(0,0)-(0,0), severity Error, message equal to the failure text. -/
theorem fallback_iff (ops : OpStream) (err : Option String) (msg : String) :
    (ops.Errors = [] → ops.Warnings = [] →
      prepareDiagnostics ops (some msg) =
        [{ Range := { Start := { Line := 0, Character := 0 },
                      Stop := { Line := 0, Character := 0 } },
           Severity := some DiagSeverity.DiagErr,
           Message := msg }]) ∧
    (ops.Errors ≠ [] →
      prepareDiagnostics ops err =
        ops.Errors.map errDiag ++ ops.Warnings.map warnDiag) ∧
    (ops.Warnings ≠ [] →
      prepareDiagnostics ops err =
        ops.Errors.map errDiag ++ ops.Warnings.map warnDiag) ∧
    (prepareDiagnostics ops none =
      ops.Errors.map errDiag ++ ops.Warnings.map warnDiag) := by
  refine ⟨?_, ?_, ?_, ?_⟩
  · intro he hw
    rw [prepareDiagnostics_eq]
    simp [fallbackList, he, hw, fallbackDiag, zeroRange, zeroPos]
  · intro he
    rw [prepareDiagnostics_eq]
    have : ops.Errors.length ≠ 0 := by simpa using he
    simp [fallbackList, this]
    cases err <;> simp
  · intro hw
    rw [prepareDiagnostics_eq]
    have : ops.Warnings.length ≠ 0 := by simpa using hw
    cases err <;> simp [fallbackList, this]
  · rw [prepareDiagnostics_eq]
    simp [fallbackList]

theorem fallback_iff_witness :
    (prepareDiagnostics { Errors := [], Warnings := [] } (some "boom") =
      [{ Range := { Start := { Line := 0, Character := 0 },
                    Stop := { Line := 0, Character := 0 } },
         Severity := some DiagSeverity.DiagErr,
         Message := "boom" }]) ∧
    (prepareDiagnostics
        { Errors := [{ Line := 1, Column := 1, msg := "e" }], Warnings := [] }
        (some "boom") =
      List.map errDiag [{ Line := 1, Column := 1, msg := "e" }] ++
        List.map warnDiag []) ∧
    (prepareDiagnostics { Errors := [], Warnings := ["w"] } (some "boom") =
      List.map errDiag [] ++ List.map warnDiag ["w"]) :=
  ⟨(fallback_iff { Errors := [], Warnings := [] } (some "boom") "boom").1 rfl rfl,
   (fallback_iff { Errors := [{ Line := 1, Column := 1, msg := "e" }], Warnings := [] }
      (some "boom") "boom").2.1 (by simp),
   (fallback_iff { Errors := [], Warnings := ["w"] } (some "boom") "boom").2.2.1
      (by simp)⟩

/-- C5: the translated sequence is always the concatenation of the
(possibly empty) fallback group, the error diagnostics in original order,
and the warning diagnostics in original order; and on a clean compile
(no errors, no warnings, no top-level failure) it is empty. -/
theorem translate_concat (ops : OpStream) (err : Option String) :
    prepareDiagnostics ops err =
      fallbackList ops err ++ ops.Errors.map errDiag ++ ops.Warnings.map warnDiag ∧
    (ops.Errors = [] → ops.Warnings = [] → err = none →
      prepareDiagnostics ops err = []) := by
  refine ⟨prepareDiagnostics_eq ops err, ?_⟩
  intro he hw hn
  subst hn
  rw [prepareDiagnostics_eq]
  simp [fallbackList, he, hw]

theorem translate_concat_witness :
    (prepareDiagnostics { Errors := [], Warnings := ["w"] } (some "f") =
      fallbackList { Errors := [], Warnings := ["w"] } (some "f") ++
        List.map errDiag [] ++ List.map warnDiag ["w"]) ∧
    (prepareDiagnostics { Errors := [], Warnings := [] } none = []) :=
  ⟨(translate_concat { Errors := [], Warnings := ["w"] } (some "f")).1,
   (translate_concat { Errors := [], Warnings := [] } none).2 rfl rfl rfl⟩

/-- C8: one structured error at line 3, column 5 with wrapped cause
"undefined label" and no warnings translates, for any top-level error
value, to exactly one diagnostic with range (2,4)-(2,4), severity Error,
message "undefined label". -/
theorem scenario_undefined_label (err : Option String) :
    prepareDiagnostics
        { Errors := [{ Line := 3, Column := 5, msg := "undefined label" }],
          Warnings := [] } err =
      [{ Range := { Start := { Line := 2, Character := 4 },
                    Stop := { Line := 2, Character := 4 } },
         Severity := some DiagSeverity.DiagErr,
         Message := "undefined label" }] := by
  rw [prepareDiagnostics_eq]
  cases err <;> simp [fallbackList, errDiag]

/-- C9: every diagnostic the translator emits has a non-null severity that
is Error or Warning, and a zero-width range (start equals end). -/
theorem diag_invariants (ops : OpStream) (err : Option String)
    (d : LspDiagnostic) (hd : d ∈ prepareDiagnostics ops err) :
    (d.Severity = some DiagSeverity.DiagErr ∨
      d.Severity = some DiagSeverity.DiagWarn) ∧
    d.Range.Start = d.Range.Stop := by
  rw [prepareDiagnostics_eq] at hd
  rcases List.mem_append.mp hd with hd' | hw
  · rcases List.mem_append.mp hd' with hf | he
    · cases err with
      | none => simp [fallbackList] at hf
      | some msg =>
          by_cases h : ops.Errors.length = 0 ∧ ops.Warnings.length = 0
          · simp [fallbackList, h] at hf
            subst hf
            exact ⟨Or.inl rfl, rfl⟩
          · simp [fallbackList, h] at hf
            exact absurd (by simp [hf.1.1, hf.1.2]) h
    · rcases List.mem_map.mp he with ⟨e, _, rfl⟩
      exact ⟨Or.inl rfl, rfl⟩
  · rcases List.mem_map.mp hw with ⟨w, _, rfl⟩
    exact ⟨Or.inr rfl, rfl⟩

theorem diag_invariants_witness :
    (fallbackDiag "f" ∈
        prepareDiagnostics { Errors := [], Warnings := [] } (some "f")) ∧
    ((fallbackDiag "f").Severity = some DiagSeverity.DiagErr ∨
      (fallbackDiag "f").Severity = some DiagSeverity.DiagWarn) ∧
    (fallbackDiag "f").Range.Start = (fallbackDiag "f").Range.Stop :=
  ⟨by simp [prepareDiagnostics_eq, fallbackList],
   diag_invariants { Errors := [], Warnings := [] } (some "f") (fallbackDiag "f")
     (by simp [prepareDiagnostics_eq, fallbackList])⟩

/-- C10: with a top-level failure, no structured errors and at least one
warning, the output is exactly the warning diagnostics: every emitted
diagnostic has severity Warning, and (as long as the failure text is not
itself one of the warning texts) the failure text appears in no message. -/
theorem failure_with_warnings (ops : OpStream) (ftext : String)
    (he : ops.Errors = []) (hw : ops.Warnings ≠ []) :
    prepareDiagnostics ops (some ftext) = ops.Warnings.map warnDiag ∧
    (∀ d ∈ prepareDiagnostics ops (some ftext),
      d.Severity = some DiagSeverity.DiagWarn) ∧
    (ftext ∉ ops.Warnings →
      ∀ d ∈ prepareDiagnostics ops (some ftext), d.Message ≠ ftext) := by
  have hlen : ops.Warnings.length ≠ 0 := by simpa using hw
  have heq : prepareDiagnostics ops (some ftext) = ops.Warnings.map warnDiag := by
    rw [prepareDiagnostics_eq]
    simp [fallbackList, hlen, he]
  refine ⟨heq, ?_, ?_⟩
  · intro d hd
    rw [heq] at hd
    rcases List.mem_map.mp hd with ⟨w, _, rfl⟩
    rfl
  · intro hft d hd
    rw [heq] at hd
    rcases List.mem_map.mp hd with ⟨w, hwmem, rfl⟩
    intro hmsg
    exact hft (by simpa [warnDiag] using hmsg ▸ hwmem)

theorem failure_with_warnings_witness :
    (([] : List SourceError) = [] ∧ (["w1", "w2"] : List String) ≠ []) ∧
    prepareDiagnostics { Errors := [], Warnings := ["w1", "w2"] } (some "boom") =
      List.map warnDiag ["w1", "w2"] ∧
    (∀ d ∈ prepareDiagnostics { Errors := [], Warnings := ["w1", "w2"] }
        (some "boom"), d.Severity = some DiagSeverity.DiagWarn) ∧
    ("boom" ∉ (["w1", "w2"] : List String) →
      ∀ d ∈ prepareDiagnostics { Errors := [], Warnings := ["w1", "w2"] }
        (some "boom"), d.Message ≠ "boom") :=
  ⟨⟨rfl, by simp⟩,
   failure_with_warnings { Errors := [], Warnings := ["w1", "w2"] } "boom"
     rfl (by simp)⟩

/-- lspArgs from the source: flag values for editor-protocol mode. -/
structure lspArgs where
  Debug : String
  Addr : String
  Net : String
deriving DecidableEq, Repr

/-- Outcome oracle for the effects runLsp performs: whether net.Dial
succeeds, whether os.Create of the debug sink succeeds, whether lsp.New
accepts the option set, and what l.Run() returns on success. -/
structure LspWorld where
  dialOk : Bool
  createOk : Bool
  newOk : Bool
  runCode : Int

/-- The duplex byte-stream runLsp selects: a dialed connection or stdio. -/
inductive Duplex where
  | net (network addr : String)
  | stdio
deriving DecidableEq, Repr

/-- lsp.LspOption values runLsp can append before calling lsp.New. -/
inductive LspOption where
  | WithDebug (path : String)
  | WithPrepareDiagnosticsHandler
deriving DecidableEq, Repr

/-- Observable trace of one runLsp invocation: the dial attempts made, the
duplex selected (none when dialing failed), the option list passed to
lsp.New, and the returned code. -/
structure LspTrace where
  dials : List (String × String)
  duplex : Option Duplex
  opts : List LspOption
  code : Int
deriving Repr

/-- Tail of runLsp: lsp.New on the accumulated options, returning -3 when
construction fails, otherwise the code of l.Run(). -/
def lspFinish (dials : List (String × String)) (d : Duplex)
    (opts : List LspOption) (w : LspWorld) : LspTrace :=
  if w.newOk then { dials := dials, duplex := some d, opts := opts, code := w.runCode }
  else { dials := dials, duplex := some d, opts := opts, code := -3 }

/-- Debug-sink phase of runLsp: a non-empty -debug path opens the sink
(exit -2 on failure) and registers WithDebug; the diagnostics handler is
always registered afterwards. -/
def lspDebugPhase (dials : List (String × String)) (d : Duplex)
    (a : lspArgs) (w : LspWorld) : LspTrace :=
  if a.Debug ≠ "" then
    if w.createOk then
      lspFinish dials d
        [LspOption.WithDebug a.Debug, LspOption.WithPrepareDiagnosticsHandler] w
    else { dials := dials, duplex := some d, opts := [], code := -2 }
  else lspFinish dials d [LspOption.WithPrepareDiagnosticsHandler] w

/-- runLsp from the source: dial exactly once when both Addr and Net are
non-empty (exit -1 on dial failure), otherwise use stdio; then the
debug-sink phase and session construction. -/
def runLsp (a : lspArgs) (w : LspWorld) : LspTrace :=
  if a.Addr ≠ "" ∧ a.Net ≠ "" then
    if w.dialOk then
      lspDebugPhase [(a.Net, a.Addr)] (Duplex.net a.Net a.Addr) a w
    else { dials := [(a.Net, a.Addr)], duplex := none, opts := [], code := -1 }
  else lspDebugPhase [] Duplex.stdio a w

/-- dbg.DbgConfig is an external collaborator type whose content this
bridge only carries; modelled as an opaque payload string. -/
abbrev DbgConfig := String

/-- models.SimulateResponse is an external collaborator type whose content
this bridge only carries; modelled as an opaque payload string. -/
abbrev SimulateResponse := String

/-- dbgArgs from the source: flag values for dbg mode. -/
structure dbgArgs where
  Debug : String
  Config : String
  Algod : String
  AlgodToken : String
  Replay : String
deriving DecidableEq, Repr

/-- dbg.DbgOption values runDbg can append before calling dbg.New. -/
inductive DbgOption where
  | WithDebug (path : String)
  | WithConfig (cfg : DbgConfig)
  | WithAlgod (endpoint token : String)
  | WithReplay (rpl : SimulateResponse)
deriving DecidableEq, Repr

/-- Outcome oracle for the effects runDbg performs: debug-sink creation,
file reads (os.ReadFile by path), JSON unmarshalling of config and replay
content, dbg.New acceptance, and the code of l.Run() on success. -/
structure DbgWorld where
  createOk : Bool
  readFile : String → Option String
  parseConfig : String → Option DbgConfig
  parseReplay : String → Option SimulateResponse
  newOk : Bool
  runCode : Int

/-- Observable trace of one runDbg invocation: the accumulated option list
and the returned code. -/
structure DbgTrace where
  opts : List DbgOption
  code : Int
deriving Repr

/-- Tail of runDbg: dbg.New on the accumulated options, returning -3 when
construction fails, otherwise the code of l.Run(). -/
def dbgFinish (opts : List DbgOption) (w : DbgWorld) : DbgTrace :=
  if w.newOk then { opts := opts, code := w.runCode }
  else { opts := opts, code := -3 }

/-- Replay phase of runDbg: a non-empty -replay path is read (exit -5 on
read failure) and unmarshalled (exit -6 on parse failure), registering
WithReplay on success. -/
def dbgReplayPhase (opts : List DbgOption) (a : dbgArgs) (w : DbgWorld) : DbgTrace :=
  if a.Replay ≠ "" then
    match w.readFile a.Replay with
    | none => { opts := opts, code := -5 }
    | some bs =>
        match w.parseReplay bs with
        | none => { opts := opts, code := -6 }
        | some rpl => dbgFinish (opts ++ [DbgOption.WithReplay rpl]) w
  else dbgFinish opts w

/-- Algod phase of runDbg: a non-empty -algod endpoint registers WithAlgod
with the (possibly empty) token; no file access, cannot fail. -/
def dbgAlgodPhase (opts : List DbgOption) (a : dbgArgs) (w : DbgWorld) : DbgTrace :=
  if a.Algod ≠ "" then
    dbgReplayPhase (opts ++ [DbgOption.WithAlgod a.Algod a.AlgodToken]) a w
  else dbgReplayPhase opts a w

/-- Config phase of runDbg: a non-empty -config path is read (exit -3 on
read failure) and unmarshalled (exit -4 on parse failure), registering
WithConfig on success. -/
def dbgConfigPhase (opts : List DbgOption) (a : dbgArgs) (w : DbgWorld) : DbgTrace :=
  if a.Config ≠ "" then
    match w.readFile a.Config with
    | none => { opts := opts, code := -3 }
    | some bs =>
        match w.parseConfig bs with
        | none => { opts := opts, code := -4 }
        | some cfg => dbgAlgodPhase (opts ++ [DbgOption.WithConfig cfg]) a w
  else dbgAlgodPhase opts a w

/-- runDbg from the source: debug-sink phase (exit -2 on create failure),
then config, algod and replay phases in that order, then dbg.New. -/
def runDbg (a : dbgArgs) (w : DbgWorld) : DbgTrace :=
  if a.Debug ≠ "" then
    if w.createOk then dbgConfigPhase [DbgOption.WithDebug a.Debug] a w
    else { opts := [], code := -2 }
  else dbgConfigPhase [] a w

/-- The dbg-mode flags the user actually passed; none = flag absent. -/
structure DbgCli where
  debug : Option String
  config : Option String
  algod : Option String
  algodToken : Option String
  replay : Option String

/-- The flag.StringVar registrations of main in dbg mode: each field takes
the user's value when supplied and its declared default otherwise; note
the -algod default is the non-empty public test endpoint. -/
def dbgArgsOfCli (c : DbgCli) : dbgArgs :=
  { Debug := c.debug.getD ""
    Config := c.config.getD ""
    Algod := c.algod.getD "https://testnet-api.algonode.cloud"
    AlgodToken := c.algodToken.getD ""
    Replay := c.replay.getD "" }

/-- The debug-sink phase of runDbg does not abort. -/
def DebugOk (a : dbgArgs) (w : DbgWorld) : Prop :=
  a.Debug = "" ∨ w.createOk = true

/-- The config phase of runDbg does not abort: no -config flag, or its
file reads and parses successfully. -/
def ConfigOk (a : dbgArgs) (w : DbgWorld) : Prop :=
  a.Config = "" ∨ ((w.readFile a.Config).bind w.parseConfig).isSome = true

/-- The replay phase of runDbg does not abort: no -replay flag, or its
file reads and parses successfully. -/
def ReplayOk (a : dbgArgs) (w : DbgWorld) : Prop :=
  a.Replay = "" ∨ ((w.readFile a.Replay).bind w.parseReplay).isSome = true

/-- The options the debug-sink phase contributes. -/
def debugOpts (a : dbgArgs) : List DbgOption :=
  if a.Debug ≠ "" then [DbgOption.WithDebug a.Debug] else []

/-- The options the config phase contributes on success. -/
def configOpts (a : dbgArgs) (w : DbgWorld) : List DbgOption :=
  if a.Config ≠ "" then
    (((w.readFile a.Config).bind w.parseConfig).map DbgOption.WithConfig).toList
  else []

/-- The options the algod phase contributes. -/
def algodOpts (a : dbgArgs) : List DbgOption :=
  if a.Algod ≠ "" then [DbgOption.WithAlgod a.Algod a.AlgodToken] else []

/-- The options the replay phase contributes on success. -/
def replayOpts (a : dbgArgs) (w : DbgWorld) : List DbgOption :=
  if a.Replay ≠ "" then
    (((w.readFile a.Replay).bind w.parseReplay).map DbgOption.WithReplay).toList
  else []

lemma dbgFinish_opts (opts : List DbgOption) (w : DbgWorld) :
    (dbgFinish opts w).opts = opts := by
  unfold dbgFinish
  cases h : w.newOk <;> simp

lemma dbgReplayPhase_eq (opts : List DbgOption) (a : dbgArgs) (w : DbgWorld)
    (h : ReplayOk a w) :
    dbgReplayPhase opts a w = dbgFinish (opts ++ replayOpts a w) w := by
  unfold dbgReplayPhase replayOpts
  by_cases hr : a.Replay = ""
  · simp [hr]
  · rcases h with h | h
    · exact absurd h hr
    · simp only [hr, ne_eq, not_false_eq_true, if_true, ite_not]
      cases hrd : w.readFile a.Replay with
      | none => rw [hrd] at h; simp at h
      | some bs =>
          rw [hrd] at h
          cases hp : w.parseReplay bs with
          | none => simp [hp] at h
          | some rpl => simp [hp]

lemma dbgAlgodPhase_eq (opts : List DbgOption) (a : dbgArgs) (w : DbgWorld)
    (h : ReplayOk a w) :
    dbgAlgodPhase opts a w = dbgFinish (opts ++ algodOpts a ++ replayOpts a w) w := by
  unfold dbgAlgodPhase algodOpts
  by_cases ha : a.Algod = ""
  · simp [ha, dbgReplayPhase_eq _ _ _ h]
  · simp [ha, dbgReplayPhase_eq _ _ _ h]

lemma dbgConfigPhase_eq (opts : List DbgOption) (a : dbgArgs) (w : DbgWorld)
    (hc : ConfigOk a w) (hr : ReplayOk a w) :
    dbgConfigPhase opts a w =
      dbgFinish (opts ++ configOpts a w ++ algodOpts a ++ replayOpts a w) w := by
  unfold dbgConfigPhase configOpts
  by_cases hcf : a.Config = ""
  · simp [hcf, dbgAlgodPhase_eq _ _ _ hr]
  · rcases hc with hc | hc
    · exact absurd hc hcf
    · simp only [hcf, ne_eq, not_false_eq_true, if_true, ite_not]
      cases hrd : w.readFile a.Config with
      | none => rw [hrd] at hc; simp at hc
      | some bs =>
          rw [hrd] at hc
          cases hp : w.parseConfig bs with
          | none => simp [hp] at hc
          | some cfg => simp [hp, dbgAlgodPhase_eq _ _ _ hr, List.append_assoc]

lemma runDbg_eq (a : dbgArgs) (w : DbgWorld)
    (hd : DebugOk a w) (hc : ConfigOk a w) (hr : ReplayOk a w) :
    runDbg a w =
      dbgFinish (debugOpts a ++ configOpts a w ++ algodOpts a ++ replayOpts a w) w := by
  unfold runDbg debugOpts
  by_cases hdb : a.Debug = ""
  · simp [hdb, dbgConfigPhase_eq _ _ _ hc hr]
  · rcases hd with hd | hd
    · exact absurd hd hdb
    · simp [hdb, hd, dbgConfigPhase_eq _ _ _ hc hr]

/-- The option list runDbg hands to dbg.New when construction succeeds:
debug-sink, config, algod, replay contributions in that fixed order. -/
lemma runDbg_opts (a : dbgArgs) (w : DbgWorld)
    (hd : DebugOk a w) (hc : ConfigOk a w) (hr : ReplayOk a w) :
    (runDbg a w).opts =
      debugOpts a ++ configOpts a w ++ algodOpts a ++ replayOpts a w := by
  rw [runDbg_eq a w hd hc hr, dbgFinish_opts]

lemma mem_debugOpts {a : dbgArgs} {x : DbgOption} (h : x ∈ debugOpts a) :
    x = DbgOption.WithDebug a.Debug := by
  unfold debugOpts at h
  by_cases hd : a.Debug = ""
  · simp [hd] at h
  · simp [hd] at h
    exact h

lemma mem_configOpts {a : dbgArgs} {w : DbgWorld} {x : DbgOption}
    (h : x ∈ configOpts a w) : ∃ cfg, x = DbgOption.WithConfig cfg := by
  unfold configOpts at h
  by_cases hc : a.Config = ""
  · simp [hc] at h
  · rw [if_pos hc] at h
    cases ho : (w.readFile a.Config).bind w.parseConfig with
    | none => rw [ho] at h; simp at h
    | some cfg =>
        rw [ho] at h
        simp at h
        exact ⟨cfg, h⟩

lemma mem_algodOpts {a : dbgArgs} {x : DbgOption} (h : x ∈ algodOpts a) :
    x = DbgOption.WithAlgod a.Algod a.AlgodToken := by
  unfold algodOpts at h
  by_cases ha : a.Algod = ""
  · simp [ha] at h
  · simp [ha] at h
    exact h

lemma mem_replayOpts {a : dbgArgs} {w : DbgWorld} {x : DbgOption}
    (h : x ∈ replayOpts a w) : ∃ rpl, x = DbgOption.WithReplay rpl := by
  unfold replayOpts at h
  by_cases hr : a.Replay = ""
  · simp [hr] at h
  · rw [if_pos hr] at h
    cases ho : (w.readFile a.Replay).bind w.parseReplay with
    | none => rw [ho] at h; simp at h
    | some rpl =>
        rw [ho] at h
        simp at h
        exact ⟨rpl, h⟩

lemma algodOpts_mem {a : dbgArgs} (ha : a.Algod ≠ "") :
    DbgOption.WithAlgod a.Algod a.AlgodToken ∈ algodOpts a := by
  simp [algodOpts, ha]

lemma replayOpts_mem {a : dbgArgs} {w : DbgWorld} (hrep : a.Replay ≠ "")
    (hr : ReplayOk a w) :
    ∃ rpl, DbgOption.WithReplay rpl ∈ replayOpts a w := by
  rcases hr with h | h
  · exact absurd h hrep
  · cases ho : (w.readFile a.Replay).bind w.parseReplay with
    | none => rw [ho] at h; simp at h
    | some rpl =>
        refine ⟨rpl, ?_⟩
        simp [replayOpts, hrep, ho]

lemma lspFinish_dials (dials : List (String × String)) (d : Duplex)
    (opts : List LspOption) (w : LspWorld) : (lspFinish dials d opts w).dials = dials := by
  unfold lspFinish
  cases h : w.newOk <;> simp

lemma lspFinish_duplex (dials : List (String × String)) (d : Duplex)
    (opts : List LspOption) (w : LspWorld) :
    (lspFinish dials d opts w).duplex = some d := by
  unfold lspFinish
  cases h : w.newOk <;> simp

lemma lspDebugPhase_dials (dials : List (String × String)) (d : Duplex)
    (a : lspArgs) (w : LspWorld) : (lspDebugPhase dials d a w).dials = dials := by
  unfold lspDebugPhase
  by_cases hd : a.Debug = ""
  · simp [hd, lspFinish_dials]
  · cases hc : w.createOk <;> simp [hd, hc, lspFinish_dials]

lemma lspDebugPhase_duplex (dials : List (String × String)) (d : Duplex)
    (a : lspArgs) (w : LspWorld) : (lspDebugPhase dials d a w).duplex = some d := by
  unfold lspDebugPhase
  by_cases hd : a.Debug = ""
  · simp [hd, lspFinish_duplex]
  · cases hc : w.createOk <;> simp [hd, hc, lspFinish_duplex]

lemma lspDebugPhase_code_createFail (dials : List (String × String)) (d : Duplex)
    (a : lspArgs) (w : LspWorld) (hdbg : a.Debug ≠ "") (hcr : w.createOk = false) :
    (lspDebugPhase dials d a w).code = -2 := by
  simp [lspDebugPhase, hdbg, hcr]

lemma lspDebugPhase_code_newFail (dials : List (String × String)) (d : Duplex)
    (a : lspArgs) (w : LspWorld) (hdbg : a.Debug = "" ∨ w.createOk = true)
    (hnew : w.newOk = false) : (lspDebugPhase dials d a w).code = -3 := by
  unfold lspDebugPhase lspFinish
  by_cases hd : a.Debug = ""
  · simp [hd, hnew]
  · rcases hdbg with h | h
    · exact absurd h hd
    · simp [hd, h, hnew]

/-- C7: given non-empty address and network, runLsp makes exactly one dial
attempt, to exactly that (network, address) pair, and returns -1 when the
dial fails; given either empty, it makes no dial attempt and selects the
stdio duplex. -/
theorem transport_selection (a : lspArgs) (w : LspWorld) :
    (a.Addr ≠ "" → a.Net ≠ "" →
      (runLsp a w).dials = [(a.Net, a.Addr)] ∧
      (w.dialOk = false → (runLsp a w).code = -1)) ∧
    ((a.Addr = "" ∨ a.Net = "") →
      (runLsp a w).dials = [] ∧ (runLsp a w).duplex = some Duplex.stdio) := by
  constructor
  · intro ha hn
    have hcond : a.Addr ≠ "" ∧ a.Net ≠ "" := ⟨ha, hn⟩
    constructor
    · unfold runLsp
      rw [if_pos hcond]
      cases hd : w.dialOk
      · simp
      · simp [lspDebugPhase_dials]
    · intro hdial
      unfold runLsp
      rw [if_pos hcond, hdial]
      simp
  · intro hor
    have hcond : ¬(a.Addr ≠ "" ∧ a.Net ≠ "") := by
      rcases hor with h | h <;> simp [h]
    unfold runLsp
    rw [if_neg hcond]
    exact ⟨lspDebugPhase_dials _ _ _ _, lspDebugPhase_duplex _ _ _ _⟩

/-- Editor-protocol args dialing a TCP client. -/
def aTcp : lspArgs := { Debug := "", Addr := "127.0.0.1:9999", Net := "tcp" }

/-- Editor-protocol args with empty address: stdio transport. -/
def aStdio : lspArgs := { Debug := "", Addr := "", Net := "tcp" }

/-- Editor-protocol args asking for a debug sink. -/
def aSinkLsp : lspArgs := { Debug := "d.log", Addr := "", Net := "tcp" }

/-- World where the only failing effect is the dial. -/
def wDialFail : LspWorld := { dialOk := false, createOk := true, newOk := true, runCode := 0 }

/-- World where the only failing effect is opening the debug sink. -/
def wCreateFailLsp : LspWorld := { dialOk := true, createOk := false, newOk := true, runCode := 0 }

/-- World where the only failing effect is lsp.New. -/
def wNewFailLsp : LspWorld := { dialOk := true, createOk := true, newOk := false, runCode := 0 }

theorem transport_selection_witness :
    ((runLsp aTcp wDialFail).dials = [("tcp", "127.0.0.1:9999")] ∧
      (runLsp aTcp wDialFail).code = -1) ∧
    ((runLsp aStdio wDialFail).dials = [] ∧
      (runLsp aStdio wDialFail).duplex = some Duplex.stdio) :=
  ⟨⟨((transport_selection aTcp wDialFail).1 (by decide) (by decide)).1,
    ((transport_selection aTcp wDialFail).1 (by decide) (by decide)).2 rfl⟩,
   (transport_selection aStdio wDialFail).2 (Or.inl rfl)⟩

/-- The dbg-mode command line for scenario C: user passes only -config
c.json and -replay r.json. -/
def cliScenarioC : DbgCli :=
  { debug := none, config := some "c.json", algod := none,
    algodToken := none, replay := some "r.json" }

/-- World for scenario C: both files read and parse fine, construction
succeeds. -/
def wScenarioC : DbgWorld :=
  { createOk := true
    readFile := fun p =>
      if p = "c.json" then some "cbytes"
      else if p = "r.json" then some "rbytes"
      else none
    parseConfig := fun s => if s = "cbytes" then some "cfg" else none
    parseReplay := fun s => if s = "rbytes" then some "rpl" else none
    newOk := true
    runCode := 0 }

/-- C6: when construction succeeds the resolver's option list is the
concatenation of the debug-sink, config, live-endpoint and replay
contributions in that fixed order; in particular, for the command line
"dbg -replay r.json -config c.json" with both files well-formed, the
config option (index 0) appears before the replay option (index 2). -/
theorem resolver_fixed_order (a : dbgArgs) (w : DbgWorld)
    (hd : DebugOk a w) (hc : ConfigOk a w) (hr : ReplayOk a w) :
    (runDbg a w).opts =
      debugOpts a ++ configOpts a w ++ algodOpts a ++ replayOpts a w ∧
    (runDbg (dbgArgsOfCli cliScenarioC) wScenarioC).opts =
      [DbgOption.WithConfig "cfg",
       DbgOption.WithAlgod "https://testnet-api.algonode.cloud" "",
       DbgOption.WithReplay "rpl"] :=
  ⟨runDbg_opts a w hd hc hr, by decide⟩

theorem resolver_fixed_order_witness :
    DebugOk (dbgArgsOfCli cliScenarioC) wScenarioC ∧
    ConfigOk (dbgArgsOfCli cliScenarioC) wScenarioC ∧
    ReplayOk (dbgArgsOfCli cliScenarioC) wScenarioC ∧
    (runDbg (dbgArgsOfCli cliScenarioC) wScenarioC).opts =
      debugOpts (dbgArgsOfCli cliScenarioC) ++
        configOpts (dbgArgsOfCli cliScenarioC) wScenarioC ++
        algodOpts (dbgArgsOfCli cliScenarioC) ++
        replayOpts (dbgArgsOfCli cliScenarioC) wScenarioC :=
  ⟨Or.inl rfl, Or.inr (by decide), Or.inr (by decide),
   (resolver_fixed_order (dbgArgsOfCli cliScenarioC) wScenarioC
      (Or.inl rfl) (Or.inr (by decide)) (Or.inr (by decide))).1⟩

/-- The dbg-mode command line where the user passes only -replay r.json
and no -algod flag. -/
def cliReplayOnly : DbgCli :=
  { debug := none, config := none, algod := none,
    algodToken := none, replay := some "r.json" }

/-- World where the replay file reads and parses fine. -/
def wReplayOnly : DbgWorld :=
  { createOk := true
    readFile := fun p => if p = "r.json" then some "rbytes" else none
    parseConfig := fun _ => none
    parseReplay := fun s => if s = "rbytes" then some "rpl" else none
    newOk := true
    runCode := 0 }

/-- C2 counterexample: with only -replay supplied by the user (no -algod
flag), the -algod default is the non-empty public test endpoint, so the
produced option list contains a live-endpoint option alongside the replay
option, contrary to the claim that it contains none. -/
theorem replay_only_cli_has_live_option :
    cliReplayOnly.algod = none ∧
    DbgOption.WithReplay "rpl" ∈
      (runDbg (dbgArgsOfCli cliReplayOnly) wReplayOnly).opts ∧
    DbgOption.WithAlgod "https://testnet-api.algonode.cloud" "" ∈
      (runDbg (dbgArgsOfCli cliReplayOnly) wReplayOnly).opts :=
  ⟨rfl, by decide, by decide⟩

/-- C2 (amended): at the resolver level, with a replay path and an empty
live-endpoint argument the option list contains a replay option and no
live-endpoint option, and with a live endpoint and no replay path it
contains a live-endpoint option and no replay option; an empty
live-endpoint argument requires the user to clear -algod explicitly, since
its default is non-empty. -/
lemma runDbg_opts_cases {a : dbgArgs} {w : DbgWorld} {x : DbgOption}
    (hd : DebugOk a w) (hc : ConfigOk a w) (hr : ReplayOk a w)
    (h : x ∈ (runDbg a w).opts) :
    x ∈ debugOpts a ∨ x ∈ configOpts a w ∨ x ∈ algodOpts a ∨ x ∈ replayOpts a w := by
  rw [runDbg_opts a w hd hc hr] at h
  simp only [List.mem_append] at h
  tauto

theorem resolver_replay_vs_live (a : dbgArgs) (w : DbgWorld)
    (hd : DebugOk a w) (hc : ConfigOk a w) (hr : ReplayOk a w) :
    (a.Replay ≠ "" → a.Algod = "" →
      (∃ rpl, DbgOption.WithReplay rpl ∈ (runDbg a w).opts) ∧
      (∀ e t, DbgOption.WithAlgod e t ∉ (runDbg a w).opts)) ∧
    (a.Algod ≠ "" → a.Replay = "" →
      DbgOption.WithAlgod a.Algod a.AlgodToken ∈ (runDbg a w).opts ∧
      (∀ rpl, DbgOption.WithReplay rpl ∉ (runDbg a w).opts)) := by
  have hopts := runDbg_opts a w hd hc hr
  constructor
  · intro hrep halg
    constructor
    · obtain ⟨rpl, hm⟩ := replayOpts_mem hrep hr
      refine ⟨rpl, ?_⟩
      rw [hopts]
      simp [hm]
    · intro e t hmem
      rcases runDbg_opts_cases hd hc hr hmem with h | h | h | h
      · have := mem_debugOpts h
        simp at this
      · obtain ⟨cfg, hcf⟩ := mem_configOpts h
        simp at hcf
      · simp [algodOpts, halg] at h
      · obtain ⟨rpl, hrp⟩ := mem_replayOpts h
        simp at hrp
  · intro halg hrep
    constructor
    · rw [hopts]
      have := algodOpts_mem (a := a) halg
      simp [this]
    · intro rpl hmem
      rcases runDbg_opts_cases hd hc hr hmem with h | h | h | h
      · have := mem_debugOpts h
        simp at this
      · obtain ⟨cfg, hcf⟩ := mem_configOpts h
        simp at hcf
      · have := mem_algodOpts h
        simp at this
      · simp [replayOpts, hrep] at h

/-- dbg args with only a replay path: the user cleared -algod. -/
def aReplayNoLive : dbgArgs :=
  { Debug := "", Config := "", Algod := "", AlgodToken := "", Replay := "r.json" }

/-- dbg args with only a live endpoint. -/
def aLiveOnly : dbgArgs :=
  { Debug := "", Config := "", Algod := "http://node", AlgodToken := "tok", Replay := "" }

theorem resolver_replay_vs_live_witness :
    ((∃ rpl, DbgOption.WithReplay rpl ∈ (runDbg aReplayNoLive wReplayOnly).opts) ∧
      (∀ e t, DbgOption.WithAlgod e t ∉ (runDbg aReplayNoLive wReplayOnly).opts)) ∧
    (DbgOption.WithAlgod "http://node" "tok" ∈ (runDbg aLiveOnly wReplayOnly).opts ∧
      (∀ rpl, DbgOption.WithReplay rpl ∉ (runDbg aLiveOnly wReplayOnly).opts)) :=
  ⟨(resolver_replay_vs_live aReplayNoLive wReplayOnly
      (Or.inl rfl) (Or.inl rfl) (Or.inr (by decide))).1 (by decide) rfl,
   (resolver_replay_vs_live aLiveOnly wReplayOnly
      (Or.inl rfl) (Or.inl rfl) (Or.inl rfl)).2 (by decide) rfl⟩

lemma runDbg_eq_configPhase (a : dbgArgs) (w : DbgWorld) (hd : DebugOk a w) :
    runDbg a w = dbgConfigPhase (debugOpts a) a w := by
  unfold runDbg debugOpts
  by_cases hdb : a.Debug = ""
  · simp [hdb]
  · rcases hd with hd | hd
    · exact absurd hd hdb
    · simp [hdb, hd]

lemma dbgAlgodPhase_eq_replay (opts : List DbgOption) (a : dbgArgs) (w : DbgWorld) :
    dbgAlgodPhase opts a w = dbgReplayPhase (opts ++ algodOpts a) a w := by
  unfold dbgAlgodPhase algodOpts
  by_cases ha : a.Algod = "" <;> simp [ha]

lemma dbgConfigPhase_eq_algod (opts : List DbgOption) (a : dbgArgs) (w : DbgWorld)
    (hc : ConfigOk a w) :
    dbgConfigPhase opts a w = dbgAlgodPhase (opts ++ configOpts a w) a w := by
  unfold dbgConfigPhase configOpts
  by_cases hcf : a.Config = ""
  · simp [hcf]
  · rcases hc with hc | hc
    · exact absurd hc hcf
    · rw [if_pos hcf, if_pos hcf]
      cases hrd : w.readFile a.Config with
      | none => rw [hrd] at hc; simp at hc
      | some bs =>
          rw [hrd] at hc
          cases hp : w.parseConfig bs with
          | none => simp [hp] at hc
          | some cfg => simp [hp]

lemma runDbg_eq_replayPhase (a : dbgArgs) (w : DbgWorld)
    (hd : DebugOk a w) (hc : ConfigOk a w) :
    runDbg a w = dbgReplayPhase (debugOpts a ++ configOpts a w ++ algodOpts a) a w := by
  rw [runDbg_eq_configPhase a w hd, dbgConfigPhase_eq_algod _ _ _ hc,
    dbgAlgodPhase_eq_replay]

/-- C1 (amended): every construction-phase failure returns its fixed
negative code: in editor-protocol mode dial -1, debug-sink open -2,
session construction -3 (pairwise distinct); in dbg mode debug-sink open
-2, config read -3, config parse -4, replay read -5, replay parse -6, and
session construction -3 — so the dbg-mode codes are distinct except that
config-read failure and session-construction failure share -3. -/
theorem construction_exit_codes (a : lspArgs) (w : LspWorld)
    (b : dbgArgs) (v : DbgWorld) :
    (a.Addr ≠ "" → a.Net ≠ "" → w.dialOk = false → (runLsp a w).code = -1) ∧
    ((a.Addr = "" ∨ a.Net = "" ∨ w.dialOk = true) → a.Debug ≠ "" →
      w.createOk = false → (runLsp a w).code = -2) ∧
    ((a.Addr = "" ∨ a.Net = "" ∨ w.dialOk = true) →
      (a.Debug = "" ∨ w.createOk = true) → w.newOk = false →
      (runLsp a w).code = -3) ∧
    (b.Debug ≠ "" → v.createOk = false → (runDbg b v).code = -2) ∧
    (DebugOk b v → b.Config ≠ "" → v.readFile b.Config = none →
      (runDbg b v).code = -3) ∧
    (DebugOk b v → b.Config ≠ "" → ∀ s, v.readFile b.Config = some s →
      v.parseConfig s = none → (runDbg b v).code = -4) ∧
    (DebugOk b v → ConfigOk b v → b.Replay ≠ "" → v.readFile b.Replay = none →
      (runDbg b v).code = -5) ∧
    (DebugOk b v → ConfigOk b v → b.Replay ≠ "" → ∀ s,
      v.readFile b.Replay = some s → v.parseReplay s = none →
      (runDbg b v).code = -6) ∧
    (DebugOk b v → ConfigOk b v → ReplayOk b v → v.newOk = false →
      (runDbg b v).code = -3) := by
  refine ⟨?_, ?_, ?_, ?_, ?_, ?_, ?_, ?_, ?_⟩
  · intro ha hn hdial
    have hcond : a.Addr ≠ "" ∧ a.Net ≠ "" := ⟨ha, hn⟩
    unfold runLsp
    rw [if_pos hcond, hdial]
    simp
  · intro hor hdbg hcr
    by_cases hcond : a.Addr ≠ "" ∧ a.Net ≠ ""
    · have hdial : w.dialOk = true := by
        rcases hor with h | h | h
        · exact absurd h hcond.1
        · exact absurd h hcond.2
        · exact h
      unfold runLsp
      rw [if_pos hcond, hdial]
      simp [lspDebugPhase_code_createFail _ _ _ _ hdbg hcr]
    · unfold runLsp
      rw [if_neg hcond]
      exact lspDebugPhase_code_createFail _ _ _ _ hdbg hcr
  · intro hor hdbg hnew
    by_cases hcond : a.Addr ≠ "" ∧ a.Net ≠ ""
    · have hdial : w.dialOk = true := by
        rcases hor with h | h | h
        · exact absurd h hcond.1
        · exact absurd h hcond.2
        · exact h
      unfold runLsp
      rw [if_pos hcond, hdial]
      simp [lspDebugPhase_code_newFail _ _ _ _ hdbg hnew]
    · unfold runLsp
      rw [if_neg hcond]
      exact lspDebugPhase_code_newFail _ _ _ _ hdbg hnew
  · intro hdbg hcr
    simp [runDbg, hdbg, hcr]
  · intro hd hcfg hread
    rw [runDbg_eq_configPhase b v hd]
    simp [dbgConfigPhase, hcfg, hread]
  · intro hd hcfg s hread hparse
    rw [runDbg_eq_configPhase b v hd]
    simp [dbgConfigPhase, hcfg, hread, hparse]
  · intro hd hc hrep hread
    rw [runDbg_eq_replayPhase b v hd hc]
    simp [dbgReplayPhase, hrep, hread]
  · intro hd hc hrep s hread hparse
    rw [runDbg_eq_replayPhase b v hd hc]
    simp [dbgReplayPhase, hrep, hread, hparse]
  · intro hd hc hr hnew
    rw [runDbg_eq b v hd hc hr]
    simp [dbgFinish, hnew]

/-- dbg args with only a config path. -/
def aConfigOnly : dbgArgs :=
  { Debug := "", Config := "c.json", Algod := "", AlgodToken := "", Replay := "" }

/-- dbg args with only a debug-sink path. -/
def bSink : dbgArgs :=
  { Debug := "d.log", Config := "", Algod := "", AlgodToken := "", Replay := "" }

/-- World where every file read fails. -/
def wReadFail : DbgWorld :=
  { createOk := true, readFile := fun _ => none, parseConfig := fun _ => none,
    parseReplay := fun _ => none, newOk := true, runCode := 0 }

/-- World where reads succeed but every unmarshal fails. -/
def wParseFail : DbgWorld :=
  { createOk := true, readFile := fun p => some p, parseConfig := fun _ => none,
    parseReplay := fun _ => none, newOk := true, runCode := 0 }

/-- World where all file handling succeeds but dbg.New fails. -/
def wNewFail : DbgWorld :=
  { createOk := true, readFile := fun p => some p, parseConfig := fun s => some s,
    parseReplay := fun s => some s, newOk := false, runCode := 0 }

/-- World where creating the debug sink fails. -/
def vCreateFail : DbgWorld :=
  { createOk := false, readFile := fun _ => none, parseConfig := fun _ => none,
    parseReplay := fun _ => none, newOk := true, runCode := 0 }

/-- C1 counterexample: in dbg mode two different construction phases
return the same exit code -3: a config-file read failure (which aborts
before any config option is registered) and a session-construction
failure (which happens after the config option was registered). -/
theorem exit_code_collision :
    (runDbg aConfigOnly wReadFail).code = -3 ∧
    (runDbg aConfigOnly wNewFail).code = -3 ∧
    (runDbg aConfigOnly wReadFail).opts = [] ∧
    (runDbg aConfigOnly wNewFail).opts = [DbgOption.WithConfig "c.json"] :=
  ⟨by decide, by decide, by decide, by decide⟩

theorem construction_exit_codes_witness :
    (runLsp aTcp wDialFail).code = -1 ∧
    (runLsp aSinkLsp wCreateFailLsp).code = -2 ∧
    (runLsp aStdio wNewFailLsp).code = -3 ∧
    (runDbg bSink vCreateFail).code = -2 ∧
    (runDbg aConfigOnly wReadFail).code = -3 ∧
    (runDbg aConfigOnly wParseFail).code = -4 ∧
    (runDbg aReplayNoLive wReadFail).code = -5 ∧
    (runDbg aReplayNoLive wParseFail).code = -6 ∧
    (runDbg aConfigOnly wNewFail).code = -3 :=
  ⟨(construction_exit_codes aTcp wDialFail bSink vCreateFail).1
      (by decide) (by decide) rfl,
   (construction_exit_codes aSinkLsp wCreateFailLsp bSink vCreateFail).2.1
      (Or.inl rfl) (by decide) rfl,
   (construction_exit_codes aStdio wNewFailLsp bSink vCreateFail).2.2.1
      (Or.inl rfl) (Or.inl rfl) rfl,
   (construction_exit_codes aStdio wDialFail bSink vCreateFail).2.2.2.1
      (by decide) rfl,
   (construction_exit_codes aStdio wDialFail aConfigOnly wReadFail).2.2.2.2.1
      (Or.inl rfl) (by decide) rfl,
   (construction_exit_codes aStdio wDialFail aConfigOnly wParseFail).2.2.2.2.2.1
      (Or.inl rfl) (by decide) "c.json" rfl rfl,
   (construction_exit_codes aStdio wDialFail aReplayNoLive wReadFail).2.2.2.2.2.2.1
      (Or.inl rfl) (Or.inl rfl) (by decide) rfl,
   (construction_exit_codes aStdio wDialFail aReplayNoLive wParseFail).2.2.2.2.2.2.2.1
      (Or.inl rfl) (Or.inl rfl) (by decide) "r.json" rfl rfl,
   (construction_exit_codes aStdio wDialFail aConfigOnly wNewFail).2.2.2.2.2.2.2.2
      (Or.inl rfl) (Or.inr (by decide)) (Or.inl rfl) rfl⟩
